import Mathlib

/-!
Verification of the NodeModal editor core
(`src/features/modals/NodeModal/index.tsx`).

The development shallowly embeds the three helpers of that file —
`normalizeNodeData`, `jsonPathToString`, `setValueAtPath` — and the
edit/view state machine made of `handleSave`, `handleCancel`,
`handleClose`, the reset effect and the Edit/Save/Cancel buttons.

Modelling conventions:
* JSON documents are the inductive `JValue`.  JavaScript arrays can
  carry named (non-index) properties, and `setValueAtPath` can create
  such properties, so `JValue.arr` carries the element list and the
  named-property list separately; `JSON.stringify` ignores the named
  properties, as in JavaScript.
* Objects are finite ordered records.  Property writes follow
  JavaScript's [[Set]] (`setField`): update-in-place for own keys,
  append for fresh keys, and the `"__proto__"` inherited-accessor
  no-op for an absent `"__proto__"`.  Property reads are own-property
  lookups; a host read of an absent key that a built-in prototype
  defines is answered by the prototype chain instead, so the theorems
  below quantify only over ranges on which the two agree (see the
  fidelity note on `setStep`).
* The component is an ES module, hence strict mode: assigning a property
  on a primitive (number, string, boolean, null) throws a `TypeError`.
  A thrown step is the `WalkStatus.thrown` outcome; the host engine's
  message text is abstracted as `jsTypeErrorMsg`.
* JSON numbers are modelled as integers (`Int`); no claim depends on
  non-integral numerics.
* Writing past the end of a JavaScript array (`a[5] = v` on `[1,2]`)
  creates holes; holes serialize as `null` and the component serializes
  the document immediately after mutating it, so the model pads with
  `JValue.null`.
-/

/-- A parsed JSON document value. `arr` keeps JavaScript's distinction
between the index elements and any named properties that were assigned
onto the array object (the latter are dropped by `JSON.stringify`). -/
inductive JValue where
  | null : JValue
  | bool (b : Bool) : JValue
  | num (n : Int) : JValue
  | str (s : String) : JValue
  | arr (elems : List JValue) (props : List (String × JValue)) : JValue
  | obj (fields : List (String × JValue)) : JValue

/-- One segment of a structural path: an object key or an array index
(non-negative, per the spec's StructuralPath data model). -/
inductive Seg where
  | str (s : String) : Seg
  | num (n : Nat) : Seg
  deriving DecidableEq

/-- Own-property lookup in an ordered field list (the own-property part
of a `cur[seg]` read; `undefined` is `none`).  A real JavaScript read
continues into the prototype chain when the own key is absent, so for
the names defined on the built-in prototypes (`objectProtoNames` and
the method names of the primitive wrappers) the host read is defined
even though this lookup returns `none`; every theorem below quantifies
only over ranges in which the own-property lookup and the host read
agree (own-property hits, or misses of keys outside those names). -/
def lookupField : List (String × JValue) → String → Option JValue
  | [], _ => none
  | (k, v) :: rest, s => if k = s then some v else lookupField rest s

/-- The string-keyed own property names of `Object.prototype`, the
prototype of every plain JSON object (and, through `Array.prototype`,
of every array).  A read of one of these keys on an object without an
own property of that name is answered by the prototype chain instead of
yielding `undefined`. -/
def objectProtoNames : List String :=
  ["constructor", "hasOwnProperty", "isPrototypeOf", "propertyIsEnumerable",
   "toLocaleString", "toString", "valueOf",
   "__defineGetter__", "__defineSetter__", "__lookupGetter__", "__lookupSetter__",
   "__proto__"]

/-- Plain ordered-map write: updates an existing key in place keeping
its position, or appends a new key at the end — JavaScript's
insertion-order semantics for ordinary data properties. -/
def updateField : List (String × JValue) → String → JValue → List (String × JValue)
  | [], s, v => [(s, v)]
  | (k, w) :: rest, s, v =>
    if k = s then (k, v) :: rest else (k, w) :: updateField rest s v

/-- `cur[key] = v` on an object-like JavaScript value ([[Set]]): an
existing own key is an ordinary data property and is updated in place;
an absent key is created by appending — except `"__proto__"`, which is
an inherited accessor on every plain object and array: with no own
`"__proto__"` the assignment invokes the setter, which changes the
prototype link for object/null values and is a silent no-op for
primitives, creating no own property either way.  The prototype link is
not part of the JSON document (`JSON.stringify` never serializes it),
so its only modelled effect is that no own property appears. -/
def setField (fields : List (String × JValue)) (s : String) (v : JValue) :
    List (String × JValue) :=
  match lookupField fields s with
  | some _ => updateField fields s v
  | none => if s = "__proto__" then fields else fields ++ [(s, v)]

/-- `cur[n] = v` on a JavaScript array: in bounds replaces the element;
past the end it creates holes up to index `n` (holes serialize as
`null`, which is how the component observes them). -/
def setElem (elems : List JValue) (n : Nat) (v : JValue) : List JValue :=
  if n < elems.length then elems.set n v
  else elems ++ List.replicate (n - elems.length) JValue.null ++ [v]

/-- Status of the imperative walk of `setValueAtPath`: returned `true`,
returned `false`, or threw a strict-mode `TypeError`. -/
inductive WalkStatus where
  | ok : WalkStatus
  | failed : WalkStatus
  | thrown : WalkStatus
  deriving DecidableEq

/-- Functional rendering of the in-place walk of `setValueAtPath`
(source lines 50-71) on a non-empty path.  Returns the value of the
walked subtree after all mutations performed up to success or failure —
the imperative code mutates `obj` through the cursor, so a failing walk
still keeps every mutation (auto-vivification) done before the failure.

Walk steps (loop over all segments but the last):
* number segment: `if (!Array.isArray(cur)) return false; cur = cur[seg]`
  then `if (cur === undefined) return false` — out-of-bounds is failure;
* string segment: `if (cur[seg] === undefined) cur[seg] = \x7b\x7d; cur = cur[seg]`
  — auto-vivifies a missing key (a [[Set]], hence `setField` in the
  reassembly); on an array this reads/creates a named property; on a
  primitive whose read yields `undefined` the assignment throws (strict
  mode).

Final segment:
* number: requires an array (`return false` otherwise), then `cur[last] = value`
  which always succeeds on an array (sparse write past the end);
* string: `cur[last] = value` via `setField` ([[Set]]) — succeeds on
  objects and arrays (silently dropped for an absent `"__proto__"`),
  and throws on primitives: the final write is unguarded, and a
  strict-mode property assignment whose receiver is a primitive throws
  for every property name, inherited or not.

Fidelity boundary: the walk's reads are own-property reads.  A real
mid-walk read of an absent key that a built-in prototype defines
(`objectProtoNames` on objects and arrays, the wrapper method names
such as `"toString"` on primitives, `"length"`/canonical indices on
strings and arrays) is answered by the host prototype chain and the
walk then leaves the JSON document for host objects; none of the
theorems below quantifies over such a step — the claim theorems either
restrict string segments away from those names, or reach their cursor
purely through own-property hits and in-bounds indices, where the
own-property read and the host read agree. -/
def setStep (value : JValue) : List Seg → JValue → JValue × WalkStatus
  | [Seg.str s], cur =>
    match cur with
    | JValue.obj fields => (JValue.obj (setField fields s value), WalkStatus.ok)
    | JValue.arr elems props => (JValue.arr elems (setField props s value), WalkStatus.ok)
    | _ => (cur, WalkStatus.thrown)
  | [Seg.num n], cur =>
    match cur with
    | JValue.arr elems props => (JValue.arr (setElem elems n value) props, WalkStatus.ok)
    | _ => (cur, WalkStatus.failed)
  | Seg.str s :: seg2 :: rest, cur =>
    match cur with
    | JValue.obj fields =>
      let res := setStep value (seg2 :: rest) ((lookupField fields s).getD (JValue.obj []))
      (JValue.obj (setField fields s res.1), res.2)
    | JValue.arr elems props =>
      let res := setStep value (seg2 :: rest) ((lookupField props s).getD (JValue.obj []))
      (JValue.arr elems (setField props s res.1), res.2)
    | _ => (cur, WalkStatus.thrown)
  | Seg.num n :: seg2 :: rest, cur =>
    match cur with
    | JValue.arr elems props =>
      if h : n < elems.length then
        let res := setStep value (seg2 :: rest) (elems.get ⟨n, h⟩)
        (JValue.arr (elems.set n res.1) props, res.2)
      else (cur, WalkStatus.failed)
    | _ => (cur, WalkStatus.failed)
  | [], cur => (cur, WalkStatus.ok)

/-- Caller-observable outcome of `setValueAtPath`: `root` is the
empty-path branch (`return value`), `ok`/`failed`/`thrown` carry the
walked root after whatever in-place mutation happened. -/
inductive SetOutcome where
  | root (v : JValue) : SetOutcome
  | ok (r : JValue) : SetOutcome
  | failed (r : JValue) : SetOutcome
  | thrown (r : JValue) : SetOutcome

/-- `setValueAtPath(obj, path, value)` (source lines 47-72).  An empty
(or absent) path returns `value` itself; otherwise the imperative walk
runs and the outcome carries the root as mutated by the walk. -/
def setValueAtPath (obj : JValue) (path : List Seg) (value : JValue) : SetOutcome :=
  match path with
  | [] => SetOutcome.root value
  | _ :: _ =>
    match setStep value path obj with
    | (r, WalkStatus.ok) => SetOutcome.ok r
    | (r, WalkStatus.failed) => SetOutcome.failed r
    | (r, WalkStatus.thrown) => SetOutcome.thrown r

/-- Reading a structural path out of a document (the spec's "re-reading
the value at that same path", §8): object keys through own properties,
array indices through elements, array string keys through named
properties. -/
def getAtPath : JValue → List Seg → Option JValue
  | v, [] => some v
  | JValue.obj fields, Seg.str s :: rest =>
    match lookupField fields s with
    | some c => getAtPath c rest
    | none => none
  | JValue.arr _ props, Seg.str s :: rest =>
    match lookupField props s with
    | some c => getAtPath c rest
    | none => none
  | JValue.arr elems _, Seg.num n :: rest =>
    match elems[n]? with
    | some c => getAtPath c rest
    | none => none
  | _, _ :: _ => none

/-- `Array.isArray`. -/
def JValue.isArray : JValue → Bool
  | JValue.arr _ _ => true
  | _ => false

/-- The mutation outcomes that `handleSave` treats as failure. -/
def SetOutcome.isFailure : SetOutcome → Bool
  | SetOutcome.failed _ => true
  | SetOutcome.thrown _ => true
  | _ => false

/-!  ## JSON serialization (`JSON.stringify(v, null, 2)`)  -/

/-- JSON string escaping as performed by `JSON.stringify`. -/
def jsonEscapeChar (c : Char) : String :=
  if c = '"' then "\\\""
  else if c = '\\' then "\\\\"
  else if c = '\x08' then "\\b"
  else if c = '\x0c' then "\\f"
  else if c = '\n' then "\\n"
  else if c = '\r' then "\\r"
  else if c = '\t' then "\\t"
  else if c.toNat < 32 then
    "\\u00" ++ String.singleton (Nat.digitChar (c.toNat / 16))
      ++ String.singleton (Nat.digitChar (c.toNat % 16))
  else String.singleton c

/-- A JSON string literal with its quotes. -/
def jsonQuote (s : String) : String :=
  "\"" ++ String.join (s.data.map jsonEscapeChar) ++ "\""

mutual

/-- `JSON.stringify(v, null, 2)` relative to the indentation of the
enclosing line.  Named array properties are dropped, as `JSON.stringify`
does; array holes were already modelled as `JValue.null`, which
stringifies to `null` just as a hole does. -/
def stringifyWith (indent : String) : JValue → String
  | JValue.null => "null"
  | JValue.bool b => if b then "true" else "false"
  | JValue.num n => toString n
  | JValue.str s => jsonQuote s
  | JValue.arr [] _ => "[]"
  | JValue.arr (e :: es) _ =>
    "[\n" ++ String.intercalate ",\n" (stringifyElems (indent ++ "  ") (e :: es))
      ++ "\n" ++ indent ++ "]"
  | JValue.obj [] => "\x7b\x7d"
  | JValue.obj (f :: fs) =>
    "\x7b\n" ++ String.intercalate ",\n" (stringifyFields (indent ++ "  ") (f :: fs))
      ++ "\n" ++ indent ++ "\x7d"

/-- Serialized array elements, one line each at the given indentation. -/
def stringifyElems (indent : String) : List JValue → List String
  | [] => []
  | e :: es => (indent ++ stringifyWith indent e) :: stringifyElems indent es

/-- Serialized object entries, one `"key": value` line each. -/
def stringifyFields (indent : String) : List (String × JValue) → List String
  | [] => []
  | (k, v) :: fs =>
    (indent ++ jsonQuote k ++ ": " ++ stringifyWith indent v) :: stringifyFields indent fs

end

/-- Top-level `JSON.stringify(v, null, 2)`. -/
def stringify2 (v : JValue) : String := stringifyWith "" v

/-!  ## The projector `normalizeNodeData` and the path formatter  -/

/-- A scalar row value (the spec's NodeRow `value: scalar`). -/
inductive Scalar where
  | null : Scalar
  | bool (b : Bool) : Scalar
  | num (n : Int) : Scalar
  | str (s : String) : Scalar
  deriving DecidableEq

/-- Embedding of a scalar row value into a document value. -/
def Scalar.toJValue : Scalar → JValue
  | Scalar.null => JValue.null
  | Scalar.bool b => JValue.bool b
  | Scalar.num n => JValue.num n
  | Scalar.str s => JValue.str s

/-- JavaScript template-literal conversion of a scalar value: the
backtick-interpolation performed by the single-row branch of
`normalizeNodeData`.  Strings convert to their raw characters, without
JSON quoting. -/
def Scalar.jsString : Scalar → String
  | Scalar.null => "null"
  | Scalar.bool b => if b then "true" else "false"
  | Scalar.num n => toString n
  | Scalar.str s => s

/-- The `type` attribute of a node row. -/
inductive RowType where
  | string : RowType
  | number : RowType
  | boolean : RowType
  | null : RowType
  | array : RowType
  | object : RowType
  deriving DecidableEq

/-- One flattened field of the selected node (`NodeData["text"]` entry). -/
structure NodeRow where
  key : Option String
  value : Scalar
  type : RowType
  deriving DecidableEq

/-- JavaScript truthiness of `row.key` (`undefined` and the empty
string are falsy). -/
def keyTruthy : Option String → Bool
  | none => false
  | some s => !(s == "")

/-- One iteration of the `forEach` loop of `normalizeNodeData`: skip
container-typed rows and rows without a (truthy) key, otherwise
`obj[row.key] = row.value`. -/
def insertRow (acc : List (String × JValue)) (row : NodeRow) : List (String × JValue) :=
  if row.type = RowType.array ∨ row.type = RowType.object then acc
  else
    match row.key with
    | some k => if k = "" then acc else setField acc k row.value.toJValue
    | none => acc

/-- The object accumulated by the `forEach` loop of `normalizeNodeData`. -/
def buildNodeObj (rows : List NodeRow) : List (String × JValue) :=
  rows.foldl insertRow []

/-- `normalizeNodeData(nodeRows)` (source lines 11-22): `"\x7b\x7d"` for an
empty row list; JavaScript string interpolation of the value for a
single keyless row; otherwise the pretty-printed object of the kept
rows. -/
def normalizeNodeData : List NodeRow → String
  | [] => "\x7b\x7d"
  | [row] =>
    if keyTruthy row.key then stringify2 (JValue.obj (buildNodeObj [row]))
    else row.value.jsString
  | rows => stringify2 (JValue.obj (buildNodeObj rows))

/-- `jsonPathToString(path)` (source lines 25-29). -/
def jsonPathToString (path : Option (List Seg)) : String :=
  match path with
  | none => "$"
  | some [] => "$"
  | some segs =>
    "$[" ++ String.intercalate "][" (segs.map fun seg =>
      match seg with
      | Seg.num n => toString n
      | Seg.str s => "\"" ++ s ++ "\"") ++ "]"

/-!  ## The editor state machine

`NodeModal`'s local state (`editValue`, `displayContent`, `error`,
`isEditing`) together with the currently selected node (`rows`, `path`),
the list of contents handed to `useFile.getState().setContents` (the
document-store writes), and whether the modal has been closed.
`JSON.parse` is a host function; the machine is parameterized by an
arbitrary `parse : String → Except String JValue` whose `Except.error`
carries the parser's failure message.  `lastSaveFailed` is a history
variable recording whether the most recent save attempt failed; it is
not part of the component's state and no transition reads it. -/

/-- Abstracted message of the strict-mode `TypeError` thrown when
`setValueAtPath` assigns a property on a primitive (the exact text is
host-engine specific). -/
def jsTypeErrorMsg : String := "TypeError: cannot create property on a primitive value"

/-- The component state plus the externally observable write history. -/
structure MState where
  rows : List NodeRow
  path : Option (List Seg)
  displayContent : String
  editValue : String
  error : Option String
  isEditing : Bool
  writes : List String
  closed : Bool
  lastSaveFailed : Bool

/-- The state produced by the success path of `handleSave`: one
`setContents` call with the serialized new document, editing stops, the
display shows the pretty-printed parsed value, the error stays `null`. -/
def saveOk (st : MState) (parsed newDoc : JValue) : MState :=
  { st with
    writes := st.writes ++ [stringify2 newDoc]
    isEditing := false
    displayContent := stringify2 parsed
    error := none
    lastSaveFailed := false }

/-- The state produced by the `catch` of `handleSave`: only the error
message changes (`setError` ran first with `null`, the `catch` sets the
thrown message). -/
def saveFail (st : MState) (msg : String) : MState :=
  { st with error := some msg, lastSaveFailed := true }

/-- `handleSave` (source lines 74-108), given the text the document
store currently returns from `getJson()`.  Parses `editValue`, parses
the store text, then either replaces the whole document (empty or
absent node path) or runs `setValueAtPath`; a `false` return becomes
the thrown `Error("Failed to update value at path")`, and all thrown
errors land in the `catch`, which records the message. -/
def applySave (parse : String → Except String JValue) (st : MState) (storeText : String) :
    MState :=
  match parse st.editValue with
  | Except.error m => saveFail st m
  | Except.ok parsed =>
    match parse storeText with
    | Except.error m => saveFail st m
    | Except.ok rootJson =>
      match st.path with
      | none => saveOk st parsed parsed
      | some [] => saveOk st parsed parsed
      | some (sg :: rest) =>
        match setValueAtPath rootJson (sg :: rest) parsed with
        | SetOutcome.root r => saveOk st parsed r
        | SetOutcome.ok r => saveOk st parsed r
        | SetOutcome.failed _ => saveFail st "Failed to update value at path"
        | SetOutcome.thrown _ => saveFail st jsTypeErrorMsg

/-- `handleCancel` (source lines 110-115): reset `editValue` to the
projection of the current node rows, clear the error, stop editing. -/
def applyCancel (st : MState) : MState :=
  { st with
    editValue := normalizeNodeData st.rows
    error := none
    isEditing := false }

/-- `handleClose` (source lines 117-123): cancel first when editing,
then close. -/
def applyClose (st : MState) : MState :=
  let st' := if st.isEditing then applyCancel st else st
  { st' with closed := true }

/-- The reset effect (source lines 38-44), fired when the selected
node's identity or content changes. -/
def applyNodeChange (st : MState) (rows : List NodeRow) (path : Option (List Seg)) : MState :=
  { st with
    rows := rows
    path := path
    displayContent := normalizeNodeData rows
    editValue := normalizeNodeData rows
    error := none
    isEditing := false }

/-- The Edit button: `setIsEditing(true)`. -/
def applyStartEdit (st : MState) : MState :=
  { st with isEditing := true }

/-- Typing in the textarea: `setEditValue`. -/
def applyTypeText (st : MState) (s : String) : MState :=
  { st with editValue := s }

/-- Reopening the modal (the `opened` prop; component state persists). -/
def applyOpenModal (st : MState) : MState :=
  { st with closed := false }

/-- A user or external event the component reacts to.  `save` carries
the text `getJson()` returns at that moment; `nodeChange` carries the
newly selected node. -/
inductive Act where
  | startEdit : Act
  | typeText (s : String) : Act
  | save (storeText : String) : Act
  | cancel : Act
  | closeModal : Act
  | openModal : Act
  | nodeChange (rows : List NodeRow) (path : Option (List Seg)) : Act

/-- Transition function of the editor. -/
def applyAct (parse : String → Except String JValue) (st : MState) : Act → MState
  | Act.startEdit => applyStartEdit st
  | Act.typeText s => applyTypeText st s
  | Act.save storeText => applySave parse st storeText
  | Act.cancel => applyCancel st
  | Act.closeModal => applyClose st
  | Act.openModal => applyOpenModal st
  | Act.nodeChange rows path => applyNodeChange st rows path

/-- When an action can actually fire in the rendered UI: the Edit
button only exists while viewing, the Save and Cancel buttons and the
textarea only while editing, and none of them while the modal is
closed. -/
def enabled (st : MState) : Act → Prop
  | Act.startEdit => st.isEditing = false ∧ st.closed = false
  | Act.typeText _ => st.isEditing = true ∧ st.closed = false
  | Act.save _ => st.isEditing = true ∧ st.closed = false
  | Act.cancel => st.isEditing = true ∧ st.closed = false
  | Act.closeModal => st.closed = false
  | Act.openModal => st.closed = true
  | Act.nodeChange _ _ => True

/-- Initial state on node selection (`useState` initializers plus the
mount run of the reset effect). -/
def initState (rows : List NodeRow) (path : Option (List Seg)) : MState :=
  { rows := rows
    path := path
    displayContent := normalizeNodeData rows
    editValue := normalizeNodeData rows
    error := none
    isEditing := false
    writes := []
    closed := false
    lastSaveFailed := false }

/-- States reachable from some initial node selection through enabled
transitions. -/
inductive Reach (parse : String → Except String JValue) : MState → Prop
  | init (rows : List NodeRow) (path : Option (List Seg)) : Reach parse (initState rows path)
  | step {st : MState} (a : Act) : Reach parse st → enabled st a →
      Reach parse (applyAct parse st a)

/-- A valid (document, path) pair in the sense of the amended claim C4:
the walk of `setValueAtPath` meets an object at every string segment
(descending into the existing child, or into the auto-vivified empty
object when the key is absent) and an in-bounds array at every integer
segment; the empty path is the whole-document replacement.  Two
restrictions keep the walk inside plain JSON data, where the
own-property read of the model and the host's prototype-chain read
agree: an auto-vivified (absent) key may not collide with the property
names of `Object.prototype` — the host would read the inherited
property instead of vivifying — and an absent final key may not be
`"__proto__"`, whose assignment the inherited accessor silently
swallows (the counterexample of C4). -/
inductive ValidFor : JValue → List Seg → Prop
  | nil (v : JValue) : ValidFor v []
  | finalStrOwn (fields : List (String × JValue)) (s : String) (w : JValue)
      (hl : lookupField fields s = some w) :
      ValidFor (JValue.obj fields) [Seg.str s]
  | finalStrNew (fields : List (String × JValue)) (s : String)
      (hl : lookupField fields s = none) (hs : s ≠ "__proto__") :
      ValidFor (JValue.obj fields) [Seg.str s]
  | finalNum (elems : List JValue) (props : List (String × JValue)) (n : Nat)
      (h : n < elems.length) : ValidFor (JValue.arr elems props) [Seg.num n]
  | stepStrHit (fields : List (String × JValue)) (s : String) (seg2 : Seg) (rest : List Seg)
      (c : JValue) (hl : lookupField fields s = some c) (ih : ValidFor c (seg2 :: rest)) :
      ValidFor (JValue.obj fields) (Seg.str s :: seg2 :: rest)
  | stepStrMiss (fields : List (String × JValue)) (s : String) (seg2 : Seg) (rest : List Seg)
      (hl : lookupField fields s = none) (hs : s ∉ objectProtoNames)
      (ih : ValidFor (JValue.obj []) (seg2 :: rest)) :
      ValidFor (JValue.obj fields) (Seg.str s :: seg2 :: rest)
  | stepNum (elems : List JValue) (props : List (String × JValue)) (n : Nat)
      (seg2 : Seg) (rest : List Seg) (h : n < elems.length)
      (ih : ValidFor (elems.get ⟨n, h⟩) (seg2 :: rest)) :
      ValidFor (JValue.arr elems props) (Seg.num n :: seg2 :: rest)

/-- The rows the `forEach` loop of `normalizeNodeData` actually keeps:
not container-typed and with a truthy key. -/
def rowKept (r : NodeRow) : Bool :=
  !(r.type == RowType.array) && !(r.type == RowType.object) && keyTruthy r.key

/-- The new document a successful `handleSave` persists: the parsed
value itself on an empty or absent node path, otherwise the root
returned by a successful `setValueAtPath`. -/
def mutationNewDoc : Option (List Seg) → JValue → JValue → Option JValue
  | none, _, parsed => some parsed
  | some [], _, parsed => some parsed
  | some (sg :: rest), rootJson, parsed =>
    match setValueAtPath rootJson (sg :: rest) parsed with
    | SetOutcome.root r => some r
    | SetOutcome.ok r => some r
    | _ => none

/-- The failure message `handleSave`'s `catch` receives, when some step
of the save fails: the `editValue` parse failure, the store-text parse
failure, the `Error` thrown on a `false` return of `setValueAtPath`, or
the `TypeError` thrown inside the walk. -/
def saveFailureMsg (parse : String → Except String JValue) (st : MState)
    (storeText : String) : Option String :=
  match parse st.editValue with
  | Except.error m => some m
  | Except.ok parsed =>
    match parse storeText with
    | Except.error m => some m
    | Except.ok rootJson =>
      match st.path with
      | none => none
      | some [] => none
      | some (sg :: rest) =>
        match setValueAtPath rootJson (sg :: rest) parsed with
        | SetOutcome.failed _ => some "Failed to update value at path"
        | SetOutcome.thrown _ => some jsTypeErrorMsg
        | _ => none

/-- The document a caller may continue with after `setValueAtPath`:
the replacement value on the empty path, the mutated root on success,
nothing on failure. -/
def SetOutcome.newDoc : SetOutcome → Option JValue
  | SetOutcome.root v => some v
  | SetOutcome.ok r => some r
  | _ => none

/-- A concrete stand-in for `JSON.parse` used to instantiate the
state-machine theorems on closed inputs. -/
def parseTable : String → Except String JValue := fun s =>
  if s = "5" then Except.ok (JValue.num 5)
  else if s = "7" then Except.ok (JValue.num 7)
  else if s = "\x7b\x7d" then Except.ok (JValue.obj [])
  else Except.error "Unexpected token b in JSON at position 0"

/-- A `JSON.parse` stand-in that rejects every input. -/
def parseAlwaysFails : String → Except String JValue :=
  fun _ => Except.error "Unexpected token"

/-- Editing state about to save `"5"` into path `$["a"]`. -/
def c5State : MState :=
  applyTypeText (applyStartEdit (initState [] (some [Seg.str "a"]))) "5"

/-- Editing state holding text that does not parse. -/
def c6State : MState :=
  applyTypeText (applyStartEdit (initState [] none)) "bad json"

/-- Editing state about to save `"5"` into path `$["a"][0]`, whose walk
fails after vivifying `a`. -/
def c2State : MState :=
  applyTypeText (applyStartEdit (initState [] (some [Seg.str "a", Seg.num 0]))) "5"

/-- Editing state like `c2State`, used to instantiate the failure
frame. -/
def c10State : MState :=
  applyTypeText (applyStartEdit (initState [] (some [Seg.str "a", Seg.num 0]))) "5"

/-- The editor after: select the root node, edit `"5"`, save it
successfully, start editing again, type `"7"`, cancel. -/
def c8Trace : MState :=
  applyAct parseTable (applyAct parseTable (applyAct parseTable (applyAct parseTable
    (applyAct parseTable (applyAct parseTable (initState [] (some []))
      Act.startEdit) (Act.typeText "5")) (Act.save "\x7b\x7d")) Act.startEdit)
    (Act.typeText "7")) Act.cancel

/-- The editor after startEdit and a save whose parse fails. -/
def c9State : MState :=
  applyAct parseAlwaysFails (applyAct parseAlwaysFails (initState [] none) Act.startEdit)
    (Act.save "\x7b\x7d")

/-!  ## Helper lemmas  -/

/-- Reading back the key just written by a property write. -/
theorem lookupField_updateField (fields : List (String × JValue)) (s : String) (v : JValue) :
    lookupField (updateField fields s v) s = some v := by
  induction fields with
  | nil => simp [updateField, lookupField]
  | cons kv rest ih =>
    obtain ⟨k, w⟩ := kv
    by_cases h : k = s
    · simp [updateField, lookupField, h]
    · simp [updateField, lookupField, h, ih]

/-- A property write on a fresh key appends it at the end. -/
theorem updateField_of_lookup_none (fields : List (String × JValue)) (s : String) (v : JValue)
    (hk : lookupField fields s = none) :
    updateField fields s v = fields ++ [(s, v)] := by
  induction fields with
  | nil => simp [updateField]
  | cons kv rest ih =>
    obtain ⟨k, w⟩ := kv
    by_cases hks : k = s
    · subst hks
      simp [lookupField] at hk
    · simp only [updateField, if_neg hks, List.cons_append, List.cons.injEq, true_and]
      refine ih ?_
      simpa [lookupField, hks] using hk

/-- Lookup skips a prefix in which the key does not occur. -/
theorem lookupField_append_none (acc tail : List (String × JValue)) (s : String)
    (h : lookupField acc s = none) :
    lookupField (acc ++ tail) s = lookupField tail s := by
  induction acc with
  | nil => rfl
  | cons kv rest ih =>
    obtain ⟨k, w⟩ := kv
    by_cases hks : k = s
    · simp [lookupField, hks] at h
    · simp only [lookupField, List.cons_append, if_neg hks] at h ⊢
      exact ih h

/-- A [[Set]] on an existing own key is the plain in-place update. -/
theorem setField_of_lookup_some (fields : List (String × JValue)) (s : String) (v w : JValue)
    (hl : lookupField fields s = some w) :
    setField fields s v = updateField fields s v := by
  simp [setField, hl]

/-- A [[Set]] on a fresh key other than `"__proto__"` appends it. -/
theorem setField_of_lookup_none_ne (fields : List (String × JValue)) (s : String) (v : JValue)
    (hl : lookupField fields s = none) (hs : s ≠ "__proto__") :
    setField fields s v = fields ++ [(s, v)] := by
  simp [setField, hl, hs]

/-- A [[Set]] of an absent `"__proto__"` is the inherited-setter no-op. -/
theorem setField_proto_of_lookup_none (fields : List (String × JValue)) (v : JValue)
    (hl : lookupField fields "__proto__" = none) :
    setField fields "__proto__" v = fields := by
  simp [setField, hl]

/-- Reading back a key just written through [[Set]], provided the write
was not the `"__proto__"` no-op. -/
theorem lookupField_setField (fields : List (String × JValue)) (s : String) (v : JValue)
    (h : s ≠ "__proto__" ∨ lookupField fields s ≠ none) :
    lookupField (setField fields s v) s = some v := by
  cases hl : lookupField fields s with
  | some w =>
    rw [setField_of_lookup_some fields s v w hl]
    exact lookupField_updateField fields s v
  | none =>
    rcases h with hs | hne
    · rw [setField_of_lookup_none_ne fields s v hl hs, lookupField_append_none _ _ _ hl]
      simp [lookupField]
    · exact absurd hl hne

/-- On a valid non-empty path the walk succeeds and the written value
can be read back at the same path. -/
theorem setStep_valid (value : JValue) {cur : JValue} {path : List Seg}
    (hv : ValidFor cur path) (hne : path ≠ []) :
    ∃ c, setStep value path cur = (c, WalkStatus.ok) ∧ getAtPath c path = some value := by
  induction hv with
  | nil v => exact absurd rfl hne
  | finalStrOwn fields s w hl =>
    refine ⟨JValue.obj (setField fields s value), ?_, ?_⟩
    · simp [setStep]
    · simp [getAtPath, lookupField_setField fields s value (Or.inr (by simp [hl]))]
  | finalStrNew fields s hl hs =>
    refine ⟨JValue.obj (setField fields s value), ?_, ?_⟩
    · simp [setStep]
    · simp [getAtPath, lookupField_setField fields s value (Or.inl hs)]
  | finalNum elems props n h =>
    refine ⟨JValue.arr (setElem elems n value) props, ?_, ?_⟩
    · simp [setStep]
    · simp only [getAtPath, setElem, if_pos h]
      rw [List.getElem?_set_self h]
  | stepStrHit fields s seg2 rest c hl _ ih =>
    obtain ⟨c', hstep, hget⟩ := ih (by simp)
    refine ⟨JValue.obj (setField fields s c'), ?_, ?_⟩
    · simp [setStep, hl, hstep]
    · simp [getAtPath, lookupField_setField fields s c' (Or.inr (by simp [hl])), hget]
  | stepStrMiss fields s seg2 rest hl hs _ ih =>
    obtain ⟨c', hstep, hget⟩ := ih (by simp)
    have hsp : s ≠ "__proto__" := fun hc => hs (by rw [hc]; simp [objectProtoNames])
    refine ⟨JValue.obj (setField fields s c'), ?_, ?_⟩
    · simp [setStep, hl, hstep]
    · simp [getAtPath, lookupField_setField fields s c' (Or.inl hsp), hget]
  | stepNum elems props n seg2 rest h _ ih =>
    obtain ⟨c', hstep, hget⟩ := ih (by simp)
    simp only [List.get_eq_getElem] at hstep
    refine ⟨JValue.arr (elems.set n c') props, ?_, ?_⟩
    · simp [setStep, h, hstep]
    · simp only [getAtPath]
      rw [List.getElem?_set_self h]
      simpa using hget

/-- One loop iteration of `normalizeNodeData` in terms of `rowKept`. -/
theorem insertRow_eq (acc : List (String × JValue)) (r : NodeRow) :
    insertRow acc r =
      if rowKept r then setField acc (r.key.getD "") r.value.toJValue else acc := by
  rcases r with ⟨key, value, type⟩
  cases key with
  | none => cases type <;> simp [insertRow, rowKept, keyTruthy]
  | some k =>
    by_cases hk : k = ""
    · subst hk
      cases type <;> simp [insertRow, rowKept, keyTruthy]
    · cases type <;> simp [insertRow, rowKept, keyTruthy, hk]

/-- The `forEach` loop keeps exactly the `rowKept` rows. -/
theorem foldl_insertRow_eq_filter (rows : List NodeRow) :
    ∀ acc : List (String × JValue),
      rows.foldl insertRow acc
        = (rows.filter rowKept).foldl
            (fun acc r => setField acc (r.key.getD "") r.value.toJValue) acc := by
  induction rows with
  | nil => intro acc; rfl
  | cons r rs ih =>
    intro acc
    cases h : rowKept r with
    | true => simp [List.filter_cons, h, insertRow_eq, ih]
    | false => simp [List.filter_cons, h, insertRow_eq, ih]

/-- Folding [[Set]] writes over pairwise-fresh keys, none of them the
swallowed `"__proto__"`, appends them in order. -/
theorem foldl_setField_fresh :
    ∀ (l : List NodeRow) (acc : List (String × JValue)),
      (∀ r ∈ l, lookupField acc (r.key.getD "") = none) →
      (l.map fun r => r.key.getD "").Nodup →
      (∀ r ∈ l, r.key.getD "" ≠ "__proto__") →
      l.foldl (fun acc r => setField acc (r.key.getD "") r.value.toJValue) acc
        = acc ++ l.map fun r => (r.key.getD "", r.value.toJValue) := by
  intro l
  induction l with
  | nil => intro acc _ _ _; simp
  | cons r rs ih =>
    intro acc hfresh hnd hnp
    have hr : lookupField acc (r.key.getD "") = none := hfresh r (List.mem_cons_self r rs)
    rw [List.foldl_cons,
      setField_of_lookup_none_ne _ _ _ hr (hnp r (List.mem_cons_self r rs))]
    rw [List.map_cons, List.nodup_cons] at hnd
    rw [ih (acc ++ [(r.key.getD "", r.value.toJValue)]) ?_ hnd.2
      (fun u hu => hnp u (List.mem_cons_of_mem _ hu))]
    · simp
    · intro u hu
      rw [lookupField_append_none _ _ _ (hfresh u (List.mem_cons_of_mem _ hu))]
      have hne : r.key.getD "" ≠ u.key.getD "" := by
        intro hcontra
        exact hnd.1 (hcontra ▸ List.mem_map_of_mem (fun r => r.key.getD "") hu)
      simp [lookupField, hne]

/-- With pairwise distinct kept keys, none of them `"__proto__"`, the
accumulated object is the kept rows in row order. -/
theorem buildNodeObj_eq_map (rows : List NodeRow)
    (hnd : ((rows.filter rowKept).map fun r => r.key.getD "").Nodup)
    (hnp : ∀ r ∈ rows.filter rowKept, r.key.getD "" ≠ "__proto__") :
    buildNodeObj rows
      = (rows.filter rowKept).map fun r => (r.key.getD "", r.value.toJValue) := by
  unfold buildNodeObj
  rw [foldl_insertRow_eq_filter]
  simpa using foldl_setField_fresh (rows.filter rowKept) [] (by simp [lookupField]) hnd hnp

/-- Every run of `handleSave` either lands in the `catch` (only the
error message and the history flag change) or takes the success path. -/
theorem applySave_shape (parse : String → Except String JValue) (st : MState)
    (storeText : String) :
    (∃ m, applySave parse st storeText = saveFail st m)
    ∨ ∃ parsed newDoc, applySave parse st storeText = saveOk st parsed newDoc := by
  unfold applySave
  split
  · exact Or.inl ⟨_, rfl⟩
  · split
    · exact Or.inl ⟨_, rfl⟩
    · split
      · exact Or.inr ⟨_, _, rfl⟩
      · exact Or.inr ⟨_, _, rfl⟩
      · split
        · exact Or.inr ⟨_, _, rfl⟩
        · exact Or.inr ⟨_, _, rfl⟩
        · exact Or.inl ⟨_, rfl⟩
        · exact Or.inl ⟨_, rfl⟩

/-- Inductive invariant of the editor: a viewing state has no error,
and a state with an error records that its last save attempt failed. -/
theorem reach_invariant (parse : String → Except String JValue) {st : MState}
    (h : Reach parse st) :
    (st.isEditing = false → st.error = none) ∧
      (st.error ≠ none → st.lastSaveFailed = true) := by
  induction h with
  | init rows path => simp [initState]
  | step a hr hen ih =>
    rename_i st'
    cases a with
    | startEdit =>
      obtain ⟨he, -⟩ := hen
      have herr : st'.error = none := ih.1 he
      constructor
      · intro _
        simpa [applyAct, applyStartEdit] using herr
      · intro hcon
        exact absurd (by simpa [applyAct, applyStartEdit] using herr) hcon
    | typeText s =>
      obtain ⟨he, -⟩ := hen
      constructor
      · intro hfalse
        simp [applyAct, applyTypeText] at hfalse
        rw [he] at hfalse
        exact absurd hfalse (by simp)
      · intro hcon
        have : st'.error ≠ none := by simpa [applyAct, applyTypeText] using hcon
        simpa [applyAct, applyTypeText] using ih.2 this
    | save storeText =>
      obtain ⟨he, -⟩ := hen
      rcases applySave_shape parse st' storeText with ⟨m, hm⟩ | ⟨parsed, newDoc, hm⟩
      · constructor
        · intro hfalse
          simp [applyAct, hm, saveFail] at hfalse
          rw [he] at hfalse
          exact absurd hfalse (by simp)
        · intro _
          simp [applyAct, hm, saveFail]
      · constructor
        · intro _
          simp [applyAct, hm, saveOk]
        · intro hcon
          simp [applyAct, hm, saveOk] at hcon
    | cancel =>
      constructor
      · intro _
        simp [applyAct, applyCancel]
      · intro hcon
        simp [applyAct, applyCancel] at hcon
    | closeModal =>
      by_cases hed : st'.isEditing = true
      · constructor
        · intro _
          simp [applyAct, applyClose, hed, applyCancel]
        · intro hcon
          simp [applyAct, applyClose, hed, applyCancel] at hcon
      · have hed' : st'.isEditing = false := by
          cases hb : st'.isEditing
          · rfl
          · exact absurd hb hed
        have herr : st'.error = none := ih.1 hed'
        constructor
        · intro _
          simp [applyAct, applyClose, hed', herr]
        · intro hcon
          have : st'.error ≠ none := by
            simpa [applyAct, applyClose, hed'] using hcon
          exact absurd herr this
    | openModal =>
      constructor
      · intro hfalse
        exact (by simpa [applyAct, applyOpenModal] using ih.1 (by simpa [applyAct, applyOpenModal] using hfalse) : _)
      · intro hcon
        have : st'.error ≠ none := by simpa [applyAct, applyOpenModal] using hcon
        simpa [applyAct, applyOpenModal] using ih.2 this
    | nodeChange rows path =>
      constructor
      · intro _
        simp [applyAct, applyNodeChange]
      · intro hcon
        simp [applyAct, applyNodeChange] at hcon

/-!  ## Claim theorems  -/

/-- C2 (corrected).  Amended claim: the save as a whole is atomic with
respect to the persisted document — if any step of the walk fails,
`handleSave` throws before calling `setContents`, so no store-visible
document change occurs.  The mutator itself, however, works in place on
the root object it is handed (a private fresh parse of the store text):
an auto-vivified intermediate object created before the failing step
does remain in that root (see the counterexample). -/
theorem handleSave_mutation_failure_no_write
    (parse : String → Except String JValue) (st : MState) (storeText : String)
    (parsed rootJson : JValue) (sg : Seg) (rest : List Seg)
    (hparse : parse st.editValue = Except.ok parsed)
    (hstore : parse storeText = Except.ok rootJson)
    (hpath : st.path = some (sg :: rest))
    (hfail : (setValueAtPath rootJson (sg :: rest) parsed).isFailure = true) :
    (applySave parse st storeText).writes = st.writes := by
  unfold applySave
  rw [hparse, hstore, hpath]
  rcases h : setValueAtPath rootJson (sg :: rest) parsed with r | r | r | r
  · rw [h] at hfail
    simp [SetOutcome.isFailure] at hfail
  · rw [h] at hfail
    simp [SetOutcome.isFailure] at hfail
  · simp [h, saveFail]
  · simp [h, saveFail]

/-- C2's counterexample to the claim as stated: a failing
`setValueAtPath` call leaves the auto-vivified intermediate object
visible in the root it was passed. -/
theorem setValueAtPath_partial_mutation_counterexample :
    setValueAtPath (JValue.obj []) [Seg.str "a", Seg.num 0] (JValue.num 2)
      = SetOutcome.failed (JValue.obj [("a", JValue.obj [])])
    ∧ JValue.obj [("a", JValue.obj [])] ≠ JValue.obj [] := by
  exact ⟨rfl, by simp⟩

/-- C3 (corrected).  Amended claim: at a final integer segment the
assignment `cur[last] = value` never fails on an array — an in-bounds
index replaces the element, and any index at or past the length extends
the array, filling the gap with holes that serialize as `null`; only a
non-array final cursor fails (with the `false` return that `handleSave`
turns into its generic failure message). -/
theorem setValueAtPath_final_index_semantics :
    (∀ (elems : List JValue) (props : List (String × JValue)) (n : Nat) (v : JValue),
        n < elems.length →
        setValueAtPath (JValue.arr elems props) [Seg.num n] v
          = SetOutcome.ok (JValue.arr (elems.set n v) props))
    ∧ (∀ (elems : List JValue) (props : List (String × JValue)) (n : Nat) (v : JValue),
        elems.length ≤ n →
        setValueAtPath (JValue.arr elems props) [Seg.num n] v
          = SetOutcome.ok (JValue.arr
              (elems ++ List.replicate (n - elems.length) JValue.null ++ [v]) props))
    ∧ (∀ (cur : JValue) (n : Nat) (v : JValue), cur.isArray = false →
        setValueAtPath cur [Seg.num n] v = SetOutcome.failed cur) := by
  refine ⟨?_, ?_, ?_⟩
  · intro elems props n v h
    simp [setValueAtPath, setStep, setElem, if_pos h]
  · intro elems props n v h
    simp [setValueAtPath, setStep, setElem, if_neg (Nat.not_lt.mpr h)]
  · intro cur n v h
    cases cur <;> simp_all [setValueAtPath, setStep, JValue.isArray]

/-- C3's counterexample to the claim as stated: a final index strictly
greater than the array length succeeds (sparse write) instead of
failing with a path-type mismatch. -/
theorem setValueAtPath_out_of_bounds_append_counterexample :
    setValueAtPath (JValue.obj [("a", JValue.arr [JValue.num 1, JValue.num 2] [])])
      [Seg.str "a", Seg.num 5] (JValue.num 9)
      = SetOutcome.ok (JValue.obj [("a", JValue.arr
          [JValue.num 1, JValue.num 2, JValue.null, JValue.null, JValue.null, JValue.num 9]
          [])]) := rfl

/-- Witness for C3's theorem: replacement in bounds, extension past the
end, and failure on a non-array. -/
theorem setValueAtPath_final_index_semantics_witness :
    setValueAtPath (JValue.arr [JValue.num 1] []) [Seg.num 0] (JValue.num 9)
      = SetOutcome.ok (JValue.arr [JValue.num 9] [])
    ∧ setValueAtPath (JValue.arr [JValue.num 1] []) [Seg.num 3] (JValue.num 9)
      = SetOutcome.ok (JValue.arr [JValue.num 1, JValue.null, JValue.null, JValue.num 9] [])
    ∧ setValueAtPath (JValue.num 7) [Seg.num 0] (JValue.num 9)
      = SetOutcome.failed (JValue.num 7) := by
  refine ⟨?_, ?_, ?_⟩
  · simpa using setValueAtPath_final_index_semantics.1 [JValue.num 1] [] 0 (JValue.num 9)
      (by decide)
  · simpa using setValueAtPath_final_index_semantics.2.1 [JValue.num 1] [] 3 (JValue.num 9)
      (by decide)
  · exact setValueAtPath_final_index_semantics.2.2 (JValue.num 7) 0 (JValue.num 9) rfl

/-- C4 (corrected).  Amended claim: for every valid triple — the path
resolving through objects at string segments (existing, or
auto-vivified provided the absent key does not collide with an
`Object.prototype` property name) and in-bounds arrays at integer
segments, with an absent final string key other than `"__proto__"` —
`setValueAtPath` succeeds and reading the same path from the resulting
document returns exactly the written value.  The exclusions are forced
by the host prototype chain: an absent `"__proto__"` assignment is
routed to the inherited accessor and silently dropped for primitive
values (the counterexample), and an absent key named like an
`Object.prototype` property is read through instead of vivified. -/
theorem setValueAtPath_roundtrip (root : JValue) (path : List Seg) (value : JValue)
    (hv : ValidFor root path) :
    ∃ r, (setValueAtPath root path value).newDoc = some r
      ∧ getAtPath r path = some value := by
  cases path with
  | nil => exact ⟨value, rfl, by cases value <;> rfl⟩
  | cons q qs =>
    obtain ⟨c, hstep, hget⟩ := setStep_valid value hv (by simp)
    refine ⟨c, ?_, hget⟩
    simp [setValueAtPath, hstep, SetOutcome.newDoc]

/-- C4's counterexample to the claim as stated: the valid triple
`setAtPath(\x7b\x7d, ["__proto__"], 5)` — an object cursor at its single
string segment — reports success, but the assignment of the absent
`"__proto__"` key went to the inherited prototype accessor, which
silently drops a primitive value: no own property is created and
re-reading the path does not yield the written value. -/
theorem setValueAtPath_proto_write_dropped_counterexample :
    setValueAtPath (JValue.obj []) [Seg.str "__proto__"] (JValue.num 5)
      = SetOutcome.ok (JValue.obj [])
    ∧ getAtPath (JValue.obj []) [Seg.str "__proto__"] ≠ some (JValue.num 5) := by
  refine ⟨rfl, ?_⟩
  simp [getAtPath, lookupField]

/-- Witness for C4 at the spec's example `setAtPath(\x7ba:\x7bb:1\x7d\x7d, ["a","b"], 2)`. -/
theorem setValueAtPath_roundtrip_witness :
    ∃ r, (setValueAtPath (JValue.obj [("a", JValue.obj [("b", JValue.num 1)])])
        [Seg.str "a", Seg.str "b"] (JValue.num 2)).newDoc = some r
      ∧ getAtPath r [Seg.str "a", Seg.str "b"] = some (JValue.num 2) :=
  setValueAtPath_roundtrip _ _ _
    (ValidFor.stepStrHit _ "a" (Seg.str "b") [] _ rfl
      (ValidFor.finalStrOwn _ "b" (JValue.num 1) rfl))

/-- C5 (confirmed).  When `editValue` parses, the store text parses and
the path mutation succeeds (or the path is empty and the document is
replaced outright), `handleSave` appends exactly one `setContents` call
carrying the serialized resulting document, stops editing (the modal is
not closed — `closed` is unchanged in the resulting record), sets the
display to the pretty-printed parsed value, and leaves the error
`null`. -/
theorem handleSave_success (parse : String → Except String JValue) (st : MState)
    (storeText : String) (parsed rootJson newDoc : JValue)
    (hparse : parse st.editValue = Except.ok parsed)
    (hstore : parse storeText = Except.ok rootJson)
    (hmut : mutationNewDoc st.path rootJson parsed = some newDoc) :
    applySave parse st storeText
      = { st with
          writes := st.writes ++ [stringify2 newDoc]
          isEditing := false
          displayContent := stringify2 parsed
          error := none
          lastSaveFailed := false } := by
  unfold applySave
  rw [hparse, hstore]
  rcases hp : st.path with _ | ps
  · rw [hp] at hmut
    simp only [mutationNewDoc, Option.some.injEq] at hmut
    subst hmut
    simp [hp, saveOk]
  · rcases ps with _ | ⟨sg, rest⟩
    · rw [hp] at hmut
      simp only [mutationNewDoc, Option.some.injEq] at hmut
      subst hmut
      simp [hp, saveOk]
    · rw [hp] at hmut
      simp only [mutationNewDoc] at hmut
      rcases hout : setValueAtPath rootJson (sg :: rest) parsed with r | r | r | r
      · rw [hout] at hmut
        simp only [Option.some.injEq] at hmut
        subst hmut
        simp [hp, hout, saveOk]
      · rw [hout] at hmut
        simp only [Option.some.injEq] at hmut
        subst hmut
        simp [hp, hout, saveOk]
      · rw [hout] at hmut
        simp at hmut
      · rw [hout] at hmut
        simp at hmut

/-- C6 (confirmed).  When `editValue` is not valid JSON, `handleSave`
stays in the editing state, records the parser's failure message as the
error, and never calls `setContents`. -/
theorem handleSave_parse_failure (parse : String → Except String JValue) (st : MState)
    (storeText : String) (m : String)
    (hedit : st.isEditing = true)
    (hparse : parse st.editValue = Except.error m) :
    applySave parse st storeText = { st with error := some m, lastSaveFailed := true }
    ∧ (applySave parse st storeText).isEditing = true
    ∧ (applySave parse st storeText).writes = st.writes := by
  have h1 : applySave parse st storeText = saveFail st m := by
    unfold applySave
    rw [hparse]
  exact ⟨h1, by simp [h1, saveFail, hedit], by simp [h1, saveFail]⟩

/-- C10 (confirmed).  Whenever some step of the save fails — the edit
text does not parse, the store text does not parse, or the path
mutation fails — the only component of the editor state that changes is
the error, set to the failure message (plus the bookkeeping history
flag of the model); `editValue`, `displayContent`, `isEditing` and the
write history keep their prior values. -/
theorem handleSave_failure_frame (parse : String → Except String JValue) (st : MState)
    (storeText : String) (m : String)
    (hm : saveFailureMsg parse st storeText = some m) :
    applySave parse st storeText = { st with error := some m, lastSaveFailed := true } := by
  unfold saveFailureMsg at hm
  unfold applySave
  rcases hpe : parse st.editValue with me | parsed
  · rw [hpe] at hm
    simp only [Option.some.injEq] at hm
    subst hm
    simp [hpe, saveFail]
  · rw [hpe] at hm
    rcases hps : parse storeText with ms | rootJson
    · rw [hps] at hm
      simp only [Option.some.injEq] at hm
      subst hm
      simp [hpe, hps, saveFail]
    · rw [hps] at hm
      rcases hp : st.path with _ | ps
      · rw [hp] at hm
        simp at hm
      · rcases ps with _ | ⟨sg, rest⟩
        · rw [hp] at hm
          simp at hm
        · rw [hp] at hm
          dsimp only at hm
          rcases hout : setValueAtPath rootJson (sg :: rest) parsed with r | r | r | r
          · rw [hout] at hm
            simp at hm
          · rw [hout] at hm
            simp at hm
          · rw [hout] at hm
            simp only [Option.some.injEq] at hm
            subst hm
            simp [hpe, hps, hp, hout, saveFail]
          · rw [hout] at hm
            simp only [Option.some.injEq] at hm
            subst hm
            simp [hpe, hps, hp, hout, saveFail]

/-- Witness for C5: the concrete successful save. -/
theorem handleSave_success_witness :
    applySave parseTable c5State "\x7b\x7d"
      = { c5State with
          writes := c5State.writes ++ [stringify2 (JValue.obj [("a", JValue.num 5)])]
          isEditing := false
          displayContent := stringify2 (JValue.num 5)
          error := none
          lastSaveFailed := false } :=
  handleSave_success parseTable c5State "\x7b\x7d" (JValue.num 5) (JValue.obj [])
    (JValue.obj [("a", JValue.num 5)]) rfl rfl rfl

/-- Witness for C6: the concrete failed parse. -/
theorem handleSave_parse_failure_witness :
    applySave parseTable c6State "\x7b\x7d"
      = { c6State with
          error := some "Unexpected token b in JSON at position 0"
          lastSaveFailed := true }
    ∧ (applySave parseTable c6State "\x7b\x7d").isEditing = true
    ∧ (applySave parseTable c6State "\x7b\x7d").writes = c6State.writes :=
  handleSave_parse_failure parseTable c6State "\x7b\x7d"
    "Unexpected token b in JSON at position 0" rfl rfl

/-- Witness for C2: the concrete failed mutation leaves the store
writes untouched. -/
theorem handleSave_mutation_failure_no_write_witness :
    (applySave parseTable c2State "\x7b\x7d").writes = c2State.writes :=
  handleSave_mutation_failure_no_write parseTable c2State "\x7b\x7d" (JValue.num 5)
    (JValue.obj []) (Seg.str "a") [Seg.num 0] rfl rfl rfl rfl

/-- Witness for C10: the concrete failed mutation only sets the error. -/
theorem handleSave_failure_frame_witness :
    applySave parseTable c10State "\x7b\x7d"
      = { c10State with
          error := some "Failed to update value at path"
          lastSaveFailed := true } :=
  handleSave_failure_frame parseTable c10State "\x7b\x7d"
    "Failed to update value at path" rfl

/-- C7 (corrected).  Amended claim: `normalizeNodeData` of an empty row
sequence is `"\x7b\x7d"`; of exactly one row with no (truthy) key it is that
row's value converted directly by JavaScript string interpolation —
numbers, booleans and null yield their JSON text, but a bare string
value yields its raw characters without JSON quotes (`hello`, not
`"hello"`, see the counterexample); otherwise it is the pretty-printed
JSON object of the rows, skipping every row typed `array` or `object`
and every row without a truthy key, writing each kept row's key through
the host object setter in row order — which maps each kept key to its
value except a key named `"__proto__"`, whose write hits the inherited
prototype accessor on the fresh object literal and is silently dropped
(see the counterexample); later duplicates update the earlier position,
per host insertion-order semantics. -/
theorem normalizeNodeData_spec :
    normalizeNodeData [] = "\x7b\x7d"
    ∧ (∀ row : NodeRow, keyTruthy row.key = false →
        normalizeNodeData [row] = row.value.jsString)
    ∧ (∀ row : NodeRow, keyTruthy row.key = true →
        normalizeNodeData [row]
          = stringify2 (JValue.obj (([row].filter rowKept).foldl
              (fun acc r => setField acc (r.key.getD "") r.value.toJValue) [])))
    ∧ (∀ rows : List NodeRow, 2 ≤ rows.length →
        normalizeNodeData rows
          = stringify2 (JValue.obj ((rows.filter rowKept).foldl
              (fun acc r => setField acc (r.key.getD "") r.value.toJValue) [])))
    ∧ (∀ rows : List NodeRow, 2 ≤ rows.length →
        ((rows.filter rowKept).map fun r => r.key.getD "").Nodup →
        (∀ r ∈ rows.filter rowKept, r.key.getD "" ≠ "__proto__") →
        normalizeNodeData rows
          = stringify2 (JValue.obj ((rows.filter rowKept).map
              fun r => (r.key.getD "", r.value.toJValue)))) := by
  have hthird : ∀ rows : List NodeRow, 2 ≤ rows.length →
      normalizeNodeData rows
        = stringify2 (JValue.obj ((rows.filter rowKept).foldl
            (fun acc r => setField acc (r.key.getD "") r.value.toJValue) [])) := by
    intro rows hlen
    rcases rows with _ | ⟨r1, _ | ⟨r2, rs⟩⟩
    · simp at hlen
    · simp at hlen
    · show stringify2 (JValue.obj (buildNodeObj (r1 :: r2 :: rs))) = _
      rw [buildNodeObj, foldl_insertRow_eq_filter]
  refine ⟨rfl, ?_, ?_, hthird, ?_⟩
  · intro row h
    simp [normalizeNodeData, h]
  · intro row h
    simp only [normalizeNodeData, h, if_pos]
    rw [buildNodeObj, foldl_insertRow_eq_filter]
  · intro rows hlen hnd hnp
    have h1 : (rows.filter rowKept).foldl
        (fun acc r => setField acc (r.key.getD "") r.value.toJValue) []
        = buildNodeObj rows := (foldl_insertRow_eq_filter rows []).symm
    rw [hthird rows hlen, h1, buildNodeObj_eq_map rows hnd hnp]

/-- C7's counterexample to the claim as stated: the single keyless
string row projects to the unquoted characters, not to the JSON text of
the string; and a kept row keyed `"__proto__"` (reachable from valid
JSON such as `\x7b"__proto__":5,"b":1\x7d`) is silently dropped by the loop's
host setter instead of being mapped. -/
theorem normalizeNodeData_singleton_string_counterexample :
    normalizeNodeData [⟨none, Scalar.str "hello", RowType.string⟩] = "hello"
    ∧ stringify2 (JValue.str "hello") = "\"hello\""
    ∧ normalizeNodeData [⟨none, Scalar.str "hello", RowType.string⟩]
        ≠ stringify2 (JValue.str "hello")
    ∧ normalizeNodeData
        [⟨some "__proto__", Scalar.num 5, RowType.number⟩,
         ⟨some "b", Scalar.num 1, RowType.number⟩]
        = "\x7b\n  \"b\": 1\n\x7d" := by
  refine ⟨rfl, rfl, ?_, rfl⟩
  decide

/-- Witness for C7 at the spec's own test vectors. -/
theorem normalizeNodeData_spec_witness :
    normalizeNodeData [⟨none, Scalar.num 5, RowType.number⟩] = "5"
    ∧ normalizeNodeData
        [⟨some "a", Scalar.num 1, RowType.number⟩,
         ⟨some "b", Scalar.str "[1,2]", RowType.array⟩]
        = "\x7b\n  \"a\": 1\n\x7d" := by
  constructor
  · exact (normalizeNodeData_spec.2.1 ⟨none, Scalar.num 5, RowType.number⟩ rfl).trans rfl
  · exact (normalizeNodeData_spec.2.2.2.1
      [⟨some "a", Scalar.num 1, RowType.number⟩,
       ⟨some "b", Scalar.str "[1,2]", RowType.array⟩] (by decide)).trans rfl

/-- C8 (corrected).  Amended claim: `handleCancel` resets `editValue`
to the projection of the currently selected node's rows — which equals
the displayed `viewText` whenever no successful save has happened since
the node was selected — clears the error, and returns to viewing.
After a successful save within the same selection the display shows the
saved value while the rows are stale, so cancel restores the stale
projection rather than the displayed text (see the counterexample). -/
theorem handleCancel_restores_projection (st : MState)
    (hview : st.displayContent = normalizeNodeData st.rows) :
    (applyCancel st).editValue = st.displayContent
    ∧ (applyCancel st).error = none
    ∧ (applyCancel st).isEditing = false := by
  refine ⟨?_, rfl, rfl⟩
  simp [applyCancel, hview]

/-- C8's counterexample to the claim as stated: after a prior
successful save in the same selection, cancel resets `editValue` to the
stale projection `"\x7b\x7d"`, not to the displayed `viewText` `"5"`. -/
theorem handleCancel_viewText_counterexample :
    Reach parseTable c8Trace
    ∧ c8Trace.editValue = "\x7b\x7d"
    ∧ c8Trace.displayContent = "5"
    ∧ c8Trace.editValue ≠ c8Trace.displayContent := by
  refine ⟨?_, rfl, rfl, by decide⟩
  exact Reach.step Act.cancel
    (Reach.step (Act.typeText "7")
      (Reach.step Act.startEdit
        (Reach.step (Act.save "\x7b\x7d")
          (Reach.step (Act.typeText "5")
            (Reach.step Act.startEdit (Reach.init [] (some [])) ⟨rfl, rfl⟩)
            ⟨rfl, rfl⟩)
          ⟨rfl, rfl⟩)
        ⟨rfl, rfl⟩)
      ⟨rfl, rfl⟩)
    ⟨rfl, rfl⟩

/-- Witness for C8's amended theorem in a freshly selected editing
state. -/
theorem handleCancel_restores_projection_witness :
    (applyCancel (applyStartEdit (initState [] none))).editValue
        = (applyStartEdit (initState [] none)).displayContent
    ∧ (applyCancel (applyStartEdit (initState [] none))).error = none
    ∧ (applyCancel (applyStartEdit (initState [] none))).isEditing = false :=
  handleCancel_restores_projection (applyStartEdit (initState [] none)) rfl

/-- C9 (confirmed).  In every state reachable through the UI-enabled
transitions from a fresh node selection, a non-null error implies the
editor is still editing and the most recent save attempt failed (its
parse or its mutation), as recorded by the model's history flag. -/
theorem editor_error_invariant (parse : String → Except String JValue) (st : MState)
    (h : Reach parse st) (herr : st.error ≠ none) :
    st.isEditing = true ∧ st.lastSaveFailed = true := by
  have hi := reach_invariant parse h
  refine ⟨?_, hi.2 herr⟩
  cases hb : st.isEditing
  · exact absurd (hi.1 hb) herr
  · rfl

/-- Witness for C9 at a concrete reachable error state. -/
theorem editor_error_invariant_witness :
    c9State.isEditing = true ∧ c9State.lastSaveFailed = true :=
  editor_error_invariant parseAlwaysFails c9State
    (Reach.step (Act.save "\x7b\x7d")
      (Reach.step Act.startEdit (Reach.init [] none) ⟨rfl, rfl⟩) ⟨rfl, rfl⟩)
    (by decide)
